import Mathlib

/-!
Verification development for the tedxsdg-search-frontend repository.

The file shallowly embeds the client-side search/session logic of
`components/organisms/TalkPanel.tsx` and `components/organisms/ChatPanel.tsx`:
the Redux store actions the panels dispatch, the search flow of
`performSearch` (guard, abort, request, result/error/cancellation handling,
telemetry span lifecycle), the result handling of `handleSearchResults`, the
transcript forwarding of `sendTranscriptAsMessage`, the strict-mode mount
effect, the user-input event handlers, and the chat clearing of
`handleClearChat`.

Effects are modelled as explicit event traces: a call produces the list of
telemetry span events, abort/request events and dispatched Redux actions, in
the order the source emits them.  The reducers of the store slices
(`store/talkSlice`, `store/apiSlice`, `store/chatSlice`) are not part of the
repository sources available here; they are modelled from the spec's
description of the shared store (talk list, loading/error flags, chat message
history).
-/

namespace TedxSearch

/-- Talk record (the `Talk` shape built in `performSearch` from
`response.data.results`: presenter, title, url, sdg_tags, transcript). -/
structure Talk where
  presenterDisplayName : String
  title : String
  url : String
  sdg_tags : List String
  transcript : String
deriving DecidableEq, Repr

/-- Chat message as dispatched by `sendTranscriptAsMessage` and the chat
slice (persona, role, sender, text, hidden). -/
structure ChatMessage where
  persona : Option String
  role : Option String
  sender : Option String
  text : String
  hidden : Bool
deriving DecidableEq, Repr

/-- Redux actions dispatched by the two panels: `setTalks`, `setSelectedTalk`
(talk slice), `setLoading`, `setApiError` (api slice), `sendMessage`,
`clearMessages` (chat slice). -/
inductive Action where
  | setTalks (ts : List Talk)
  | setSelectedTalk (t : Talk)
  | setLoading (b : Bool)
  | setApiError (e : Option String)
  | sendMessage (msg : ChatMessage)
  | clearMessages
deriving DecidableEq, Repr

/-- Shared store state: talk list, selected talk, loading/error flags and
chat message history. -/
structure StoreState where
  talks : List Talk
  selectedTalk : Option Talk
  isLoading : Bool
  error : Option String
  messages : List ChatMessage
deriving DecidableEq, Repr

/-- Modelled from the spec: the reducers of the shared reactive store
(`store/talkSlice.ts`, `store/apiSlice.ts`, `store/chatSlice.ts` are not under
`src/`).  The spec describes "a centralized, app-wide reactive store holding
talk list, loading/error flags, and chat message history"; each action writes
its own field, `sendMessage` appends to the history and `clearMessages`
empties it. -/
def applyAction (s : StoreState) : Action → StoreState
  | .setTalks ts => { s with talks := ts }
  | .setSelectedTalk t => { s with selectedTalk := some t }
  | .setLoading b => { s with isLoading := b }
  | .setApiError e => { s with error := e }
  | .sendMessage msg => { s with messages := s.messages ++ [msg] }
  | .clearMessages => { s with messages := [] }

/-- Dispatch a list of actions to the store in order. -/
def applyActions (s : StoreState) (acts : List Action) : StoreState :=
  acts.foldl applyAction s

/-- Helper `getSdgTitles` of TalkPanel: map each tag through `sdgTitleMap`
with the JavaScript falsy fallback `sdgTitleMap[tag] || tag` (missing key or
empty string falls back to the tag).  The map itself lives in
`components/constants/sdgTitles` which is not under `src/`, so it is a
parameter `m`. -/
def getSdgTitles (m : String → Option String) (sdgTags : List String) : List String :=
  sdgTags.map fun tag =>
    match m tag with
    | none => tag
    | some s => if s = "" then tag else s

/-- The chat message built by `sendTranscriptAsMessage`:
text = transcript, separator, title, blank line, SDG titles joined by
a comma; persona is the presenter display name, role and sender are bot. -/
def transcriptMessage (m : String → Option String) (talk : Talk) : ChatMessage :=
  { persona := some talk.presenterDisplayName
    role := some "bot"
    sender := some "bot"
    text := talk.transcript ++ " —— " ++ talk.title ++ "\n\n"
              ++ String.intercalate ", " (getSdgTitles m talk.sdg_tags)
    hidden := false }

/-- `sendTranscriptAsMessage` (TalkPanel lines 186-205): if the talk's title
is already in `sentMessagesRef` nothing is dispatched; otherwise the title is
added to the set and one chat message is dispatched.  Returns the new sent
set and the dispatched actions. -/
def sendTranscriptAsMessage (m : String → Option String) (sent : List String)
    (talk : Talk) : List String × List Action :=
  if talk.title ∈ sent then (sent, [])
  else (talk.title :: sent, [Action.sendMessage (transcriptMessage m talk)])

/-- `handleSearchResults` (TalkPanel lines 164-184): dispatch `setTalks data`;
when the list is non-empty pick the element at the random index, move it to
the top by filtering out every talk of the same title, dispatch the reordered
list and the selection, and forward the transcript.  The random index of
`Math.floor(Math.random() * data.length)` is an explicit parameter. -/
def handleSearchResults (m : String → Option String) (sent : List String)
    (data : List Talk) (randomIndex : Nat) : List String × List Action :=
  match data[randomIndex]? with
  | some randomTalk =>
      let reorderedTalks := randomTalk :: data.filter fun talk => talk.title != randomTalk.title
      let r := sendTranscriptAsMessage m sent randomTalk
      (r.1, [Action.setTalks data, Action.setTalks reorderedTalks,
             Action.setSelectedTalk randomTalk] ++ r.2)
  | none => (sent, [Action.setTalks data])

/-- `handleClearChat` (ChatPanel lines 66-69): dispatch `clearMessages`. -/
def handleClearChat : List Action :=
  [Action.clearMessages]

/-- How one `performSearch` request settles: the awaited `axios.get` returns
status 200 with a mapped result list, fails for a non-cancellation reason
(network error or non-200 status), or is rejected as cancelled after an
abort of its signal. -/
inductive Outcome where
  | success (results : List Talk)
  | failure
  | cancelled
deriving DecidableEq, Repr

/-- Observable events of one `performSearch` call, in source order: span
lifecycle and attributes of the `search_talks` span, abort of a previous
controller, the issued request (tagged with its controller id), and the
dispatched Redux actions. -/
inductive Event where
  | spanStart
  | spanEnd
  | attrQuery (q : String)
  | attrSkipped
  | attrResultsCount (n : Nat)
  | attrCancelled
  | exceptionRecorded
  | abortReq (id : Nat)
  | issueReq (id : Nat)
  | act (a : Action)
deriving DecidableEq, Repr

/-- Whether an event is the issuing of a network request. -/
def Event.isIssue : Event → Bool
  | .issueReq _ => true
  | _ => false

/-- The Redux action of an event, when it is one. -/
def eventAct? : Event → Option Action
  | .act a => some a
  | _ => none

/-- The Redux actions contained in an event trace, in order. -/
def actsOf (evts : List Event) : List Action :=
  evts.filterMap eventAct?

/-- Mutable refs of the TalkPanel relevant to a `performSearch` call:
`isStrictMode`, `isSearchInProgress`, the abort controller ref (modelled as
the id of the current controller, `none` before the first request, together
with a counter supplying fresh ids), and the `sentMessagesRef` title set. -/
structure PanelState where
  isStrictMode : Bool
  isSearchInProgress : Bool
  controller : Option Nat
  nextId : Nat
  sent : List String
deriving DecidableEq, Repr

/-- `performSearch` (TalkPanel lines 106-162).  The call starts the
`search_talks` span and records the trimmed lowercased query; if a search is
already in progress it marks the span skipped, ends it and returns; otherwise
it aborts any previous controller, creates a fresh one, sets the in-progress
flag, dispatches loading/clear-error, and issues the request.  On success it
records the result count and, unless strict mode is on, handles the results;
on a non-cancellation error it records the exception and dispatches the API
error; on cancellation it marks the span cancelled.  The `finally` block
dispatches loading-off, clears the in-progress flag and ends the span. -/
def performSearch (m : String → Option String) (p : PanelState) (query : String)
    (randomIndex : Nat) (o : Outcome) : PanelState × List Event :=
  let trimmedQuery := query.trim.toLower
  let pre := [Event.spanStart, Event.attrQuery trimmedQuery]
  if p.isSearchInProgress then
    (p, pre ++ [Event.attrSkipped, Event.spanEnd])
  else
    let abortEvts :=
      match p.controller with
      | some c => [Event.abortReq c]
      | none => []
    let id := p.nextId
    let p1 : PanelState :=
      { p with controller := some id, nextId := id + 1, isSearchInProgress := true }
    let startEvts := pre ++ abortEvts
        ++ [Event.act (Action.setLoading true), Event.act (Action.setApiError none),
            Event.issueReq id]
    match o with
    | .success results =>
        let r :=
          if p1.isStrictMode then (p1.sent, ([] : List Action))
          else handleSearchResults m p1.sent results randomIndex
        ({ p1 with sent := r.1, isSearchInProgress := false },
         startEvts ++ [Event.attrResultsCount results.length]
           ++ r.2.map Event.act
           ++ [Event.act (Action.setLoading false), Event.spanEnd])
    | .failure =>
        ({ p1 with isSearchInProgress := false },
         startEvts ++ [Event.exceptionRecorded,
                       Event.act (Action.setApiError (some "Error fetching talks.")),
                       Event.act (Action.setLoading false), Event.spanEnd])
    | .cancelled =>
        ({ p1 with isSearchInProgress := false },
         startEvts ++ [Event.attrCancelled,
                       Event.act (Action.setLoading false), Event.spanEnd])

/-- Mount refs of the strict-mode guard: `mountCounter` and `isStrictMode`
(TalkPanel lines 37-38, initially 0 and false). -/
structure MountRefs where
  mountCounter : Nat
  isStrictMode : Bool
deriving DecidableEq, Repr

/-- Mount effect (TalkPanel lines 81-104): in development the first mount
enters strict mode and does not search; a subsequent mount exits strict mode
and searches; outside development every mount searches.  Returns the updated
refs and whether the effect invokes `performSearch`. -/
def mountEffect (isDevelopment : Bool) (r : MountRefs) : MountRefs × Bool :=
  if isDevelopment then
    let c := r.mountCounter + 1
    if c = 1 then ({ mountCounter := c, isStrictMode := true }, false)
    else ({ mountCounter := c, isStrictMode := false }, true)
  else (r, true)

/-- User-input events on the search panel: editing the query input, a keydown
in the input, and the Search button. -/
inductive UiEvent where
  | queryChange (v : String)
  | keyDown (key : String)
  | searchClick
deriving DecidableEq, Repr

/-- Calls a UI handler makes: update the query state, call `performSearch`
directly, or call the 500 ms debounced wrapper `debouncedPerformSearch`. -/
inductive HandlerCall where
  | setSearchQueryCall (v : String)
  | performSearchNow (q : String)
  | debouncedSearchCall (q : String)
deriving DecidableEq, Repr

/-- Wait of the `debounce((query) => performSearch(query), 500)` wrapper
(TalkPanel lines 47-50), in milliseconds. -/
def debounceWaitMs : Nat := 500

/-- The handler calls produced by each user-input event (TalkPanel lines
250-266): `onChange` only sets the query state; `onKeyDown` calls
`performSearch` directly when the key is Enter; the Search button calls
`performSearch` directly.  No handler invokes the debounced wrapper. -/
def handlerCallsFor (searchQuery : String) : UiEvent → List HandlerCall
  | .queryChange v => [HandlerCall.setSearchQueryCall v]
  | .keyDown k => if k = "Enter" then [HandlerCall.performSearchNow searchQuery] else []
  | .searchClick => [HandlerCall.performSearchNow searchQuery]

/-- Whether a handler call is a direct `performSearch` invocation. -/
def HandlerCall.isPerformNow : HandlerCall → Bool
  | .performSearchNow _ => true
  | _ => false

/-- Times at which timed user-input events invoke `performSearch` (directly,
as the handlers do). -/
def performSearchInvocations (q : String) (evts : List (Nat × UiEvent)) : List Nat :=
  evts.filterMap fun te =>
    if (handlerCallsFor q te.2).any HandlerCall.isPerformNow then some te.1 else none

/-- Modelled from the spec: the debouncing property the spec asserts of the
search panel ("delay invoking a handler until a quiet period has elapsed
since the last trigger", quiet period 500 ms), read over the panel's
user-input handlers: if all triggers fall within one quiet period, at most
one `performSearch` invocation results. -/
def specDebounceProperty : Prop :=
  ∀ (q : String) (evts : List (Nat × UiEvent)),
    (∀ p1 ∈ evts, ∀ p2 ∈ evts, p2.1 - p1.1 < debounceWaitMs) →
    (performSearchInvocations q evts).length ≤ 1

/-- Interleaving model of the search flow for the in-flight invariant.  A
state records the `isSearchInProgress` flag, the current abort-controller ref
and fresh-id counter, and the history of issued, aborted and finished
requests (by controller id). -/
structure FlightState where
  inProgress : Bool
  controller : Option Nat
  nextId : Nat
  issued : List Nat
  aborted : List Nat
  finished : List Nat
deriving DecidableEq, Repr

/-- Initial refs: no search in progress, no controller, nothing issued. -/
def initFlight : FlightState :=
  { inProgress := false, controller := none, nextId := 0,
    issued := [], aborted := [], finished := [] }

/-- The synchronous prologue of a `performSearch` call (lines 114-133): if a
search is in progress the call skips; otherwise it aborts the current
controller, installs a fresh one, sets the in-progress flag and issues the
request with the fresh controller's signal. -/
def stepInvoke (s : FlightState) : FlightState :=
  if s.inProgress then s
  else
    { s with
      inProgress := true
      controller := some s.nextId
      nextId := s.nextId + 1
      issued := s.nextId :: s.issued
      aborted :=
        match s.controller with
        | some c => c :: s.aborted
        | none => s.aborted }

/-- The epilogue of the call awaiting request `r` (the `finally` block,
lines 156-160): when that request settles (success, error or cancellation),
it is finished and the in-progress flag is cleared. -/
def stepComplete (s : FlightState) (r : Nat) : FlightState :=
  if r ∈ s.issued ∧ r ∉ s.finished then
    { s with finished := r :: s.finished, inProgress := false }
  else s

/-- One event-loop step: a `performSearch` prologue runs, or the awaited
request of some pending call settles. -/
inductive FlightCmd where
  | invoke
  | complete (r : Nat)
deriving DecidableEq, Repr

/-- Run a sequence of event-loop steps. -/
def runFlight (s : FlightState) : List FlightCmd → FlightState
  | [] => s
  | FlightCmd.invoke :: cs => runFlight (stepInvoke s) cs
  | FlightCmd.complete r :: cs => runFlight (stepComplete s r) cs

/-- Requests currently in flight and not aborted: issued, not aborted, not
finished. -/
def inFlightNonAborted (s : FlightState) : List Nat :=
  s.issued.filter fun r => decide (r ∉ s.aborted) && decide (r ∉ s.finished)

/-- Repeated `sendTranscriptAsMessage` calls over the panel's lifetime,
threading the `sentMessagesRef` set and collecting the dispatched actions. -/
def runSendAll (m : String → Option String) (sent : List String) :
    List Talk → List String × List Action
  | [] => (sent, [])
  | t :: ts =>
      let r1 := sendTranscriptAsMessage m sent t
      let r2 := runSendAll m r1.1 ts
      (r2.1, r1.2 ++ r2.2)

/-! ### Helper lemmas -/

/-- Whether an action is a chat `sendMessage` dispatch. -/
def Action.isSendMessage : Action → Bool
  | .sendMessage _ => true
  | _ => false

/-- Whether an action writes the api slice (loading or error flag). -/
def Action.touchesApi : Action → Bool
  | .setLoading _ => true
  | .setApiError _ => true
  | _ => false

theorem applyActions_append (s : StoreState) (l1 l2 : List Action) :
    applyActions s (l1 ++ l2) = applyActions (applyActions s l1) l2 :=
  List.foldl_append applyAction s l1 l2

theorem sendTranscript_acts_sendOnly (m : String → Option String)
    (sent : List String) (t : Talk) :
    ∀ a ∈ (sendTranscriptAsMessage m sent t).2, a.isSendMessage = true := by
  unfold sendTranscriptAsMessage
  split <;> simp [Action.isSendMessage]

theorem applyActions_sendOnly_talks (s : StoreState) (l : List Action)
    (h : ∀ a ∈ l, a.isSendMessage = true) :
    (applyActions s l).talks = s.talks
    ∧ (applyActions s l).selectedTalk = s.selectedTalk
    ∧ (applyActions s l).isLoading = s.isLoading
    ∧ (applyActions s l).error = s.error := by
  induction l generalizing s with
  | nil => exact ⟨rfl, rfl, rfl, rfl⟩
  | cons a l ih =>
      have ha := h a (List.mem_cons_self a l)
      have hrest : ∀ a ∈ l, a.isSendMessage = true :=
        fun a ha => h a (List.mem_cons_of_mem _ ha)
      cases a with
      | sendMessage msg =>
          simpa [applyActions, applyAction] using ih _ hrest
      | setTalks ts => simp [Action.isSendMessage] at ha
      | setSelectedTalk t => simp [Action.isSendMessage] at ha
      | setLoading b => simp [Action.isSendMessage] at ha
      | setApiError e => simp [Action.isSendMessage] at ha
      | clearMessages => simp [Action.isSendMessage] at ha

theorem applyActions_no_api_touch (s : StoreState) (l : List Action)
    (h : ∀ a ∈ l, a.touchesApi = false) :
    (applyActions s l).isLoading = s.isLoading
    ∧ (applyActions s l).error = s.error := by
  induction l generalizing s with
  | nil => exact ⟨rfl, rfl⟩
  | cons a l ih =>
      have ha := h a (List.mem_cons_self a l)
      have hrest : ∀ a ∈ l, a.touchesApi = false :=
        fun a ha => h a (List.mem_cons_of_mem _ ha)
      cases a with
      | setLoading b => simp [Action.touchesApi] at ha
      | setApiError e => simp [Action.touchesApi] at ha
      | setTalks ts => simpa [applyActions, applyAction] using ih _ hrest
      | setSelectedTalk t => simpa [applyActions, applyAction] using ih _ hrest
      | sendMessage msg => simpa [applyActions, applyAction] using ih _ hrest
      | clearMessages => simpa [applyActions, applyAction] using ih _ hrest

theorem handleSearchResults_acts_no_api (m : String → Option String)
    (sent : List String) (data : List Talk) (ri : Nat) :
    ∀ a ∈ (handleSearchResults m sent data ri).2, a.touchesApi = false := by
  unfold handleSearchResults
  cases hd : data[ri]? with
  | none => simp [Action.touchesApi]
  | some t =>
      intro a ha
      simp only [List.mem_append, List.mem_cons, List.not_mem_nil, or_false] at ha
      rcases ha with (h | h | h) | h
      · subst h; rfl
      · subst h; rfl
      · subst h; rfl
      · have := sendTranscript_acts_sendOnly m sent t a h
        cases a <;> simp_all [Action.isSendMessage, Action.touchesApi]

theorem count_spanEnd_map_act (l : List Action) :
    (l.map Event.act).count Event.spanEnd = 0 := by
  induction l with
  | nil => rfl
  | cons a l ih => simp [List.count_cons, ih]

theorem count_spanStart_map_act (l : List Action) :
    (l.map Event.act).count Event.spanStart = 0 := by
  induction l with
  | nil => rfl
  | cons a l ih => simp [List.count_cons, ih]

/-! ### Claim theorems -/

/-- C8: the Chat Panel clears history on demand: `handleClearChat` dispatches
`clearMessages`, after which the chat message history is empty, and the talk
list, selected talk, loading flag and error flag are unchanged. -/
theorem handleClearChat_clears_only_messages (s : StoreState) :
    handleClearChat = [Action.clearMessages]
    ∧ (applyActions s handleClearChat).messages = []
    ∧ (applyActions s handleClearChat).talks = s.talks
    ∧ (applyActions s handleClearChat).selectedTalk = s.selectedTalk
    ∧ (applyActions s handleClearChat).isLoading = s.isLoading
    ∧ (applyActions s handleClearChat).error = s.error :=
  ⟨rfl, rfl, rfl, rfl, rfl, rfl⟩

/-- C9: every telemetry span started by `performSearch` bounds exactly one
search operation: on every execution path (skipped, success, failure,
cancellation) the trace contains exactly one span start and exactly one span
end. -/
theorem performSearch_span_ended_once (m : String → Option String)
    (p : PanelState) (q : String) (ri : Nat) (o : Outcome) :
    ((performSearch m p q ri o).2.count Event.spanEnd = 1)
    ∧ ((performSearch m p q ri o).2.count Event.spanStart = 1) := by
  unfold performSearch
  cases hp : p.isSearchInProgress <;> cases o <;> cases hc : p.controller <;>
    simp [List.count_append, List.count_cons, count_spanEnd_map_act,
          count_spanStart_map_act]

theorem filterMap_eventAct_map (l : List Action) :
    List.filterMap (eventAct? ∘ Event.act) l = l := by
  induction l with
  | nil => rfl
  | cons a l ih => simpa [eventAct?] using ih

theorem actsOf_map_act (l : List Action) : actsOf (l.map Event.act) = l := by
  simpa [actsOf, List.filterMap_map] using filterMap_eventAct_map l

theorem final_error_none (s : StoreState) (mid : List Action)
    (hmid : ∀ a ∈ mid, a.touchesApi = false) :
    (applyActions s ([Action.setLoading true, Action.setApiError none]
      ++ mid ++ [Action.setLoading false])).error = none := by
  rw [applyActions_append, applyActions_append]
  have h2 := (applyActions_no_api_touch
      (applyActions s [Action.setLoading true, Action.setApiError none]) mid hmid).2
  simpa [applyActions, applyAction] using h2

/-- C5: an aborted in-flight request is ignored: for a call that actually
performs a request, the cancellation path marks the span with
search.cancelled, dispatches no API error (the resulting error state is
cleared, not set), and commits no results to the store (no talk list, talk
selection, or chat message dispatch). -/
theorem performSearch_cancelled_ignored (m : String → Option String)
    (p : PanelState) (q : String) (ri : Nat)
    (h : p.isSearchInProgress = false) :
    Event.attrCancelled ∈ (performSearch m p q ri Outcome.cancelled).2
    ∧ (∀ e : String,
        Event.act (Action.setApiError (some e)) ∉ (performSearch m p q ri Outcome.cancelled).2)
    ∧ (∀ ts : List Talk,
        Event.act (Action.setTalks ts) ∉ (performSearch m p q ri Outcome.cancelled).2)
    ∧ (∀ t : Talk,
        Event.act (Action.setSelectedTalk t) ∉ (performSearch m p q ri Outcome.cancelled).2)
    ∧ (∀ msg : ChatMessage,
        Event.act (Action.sendMessage msg) ∉ (performSearch m p q ri Outcome.cancelled).2)
    ∧ (∀ s : StoreState,
        (applyActions s (actsOf (performSearch m p q ri Outcome.cancelled).2)).error = none) := by
  unfold performSearch
  cases hc : p.controller <;>
    simp [h, actsOf, eventAct?, applyActions, applyAction]

/-- C6: `performSearch` maintains the loading/error flags: for a call that
actually performs a request, loading is set and the error cleared before the
request is issued, the error is set to the fetch-error message exactly when
the request fails for a non-cancellation reason, and loading is reset to
false at the end of every path (success, failure, cancellation). -/
theorem performSearch_loading_error_flags (m : String → Option String)
    (p : PanelState) (q : String) (ri : Nat) (o : Outcome)
    (h : p.isSearchInProgress = false) :
    actsOf ((performSearch m p q ri o).2.takeWhile fun e => !e.isIssue)
      = [Action.setLoading true, Action.setApiError none]
    ∧ (∀ s : StoreState,
        (applyActions s (actsOf (performSearch m p q ri o).2)).isLoading = false)
    ∧ (∀ s : StoreState,
        (applyActions s (actsOf (performSearch m p q ri o).2)).error
          = if o = Outcome.failure then some "Error fetching talks." else none) := by
  refine ⟨?_, ?_, ?_⟩
  · unfold performSearch
    cases hc : p.controller <;> cases o <;>
      simp [h, actsOf, eventAct?, Event.isIssue, List.takeWhile_cons]
  · intro s
    unfold performSearch
    cases hc : p.controller <;> cases o <;>
      simp [h, actsOf, eventAct?, filterMap_eventAct_map, applyActions_append,
            applyActions, applyAction]
  · intro s
    unfold performSearch
    cases hc : p.controller <;> rcases o with results | _ | _ <;>
      simp [h, actsOf, eventAct?, filterMap_eventAct_map, applyActions, applyAction]
    case none.success =>
      have := final_error_none s
        (if p.isStrictMode then [] else (handleSearchResults m p.sent results ri).2)
        (by
          split
          · simp
          · exact handleSearchResults_acts_no_api m p.sent results ri)
      simpa [applyActions_append, applyActions, applyAction, actsOf, eventAct?,
             filterMap_eventAct_map, apply_ite Prod.snd] using this
    case some.success c =>
      have := final_error_none s
        (if p.isStrictMode then [] else (handleSearchResults m p.sent results ri).2)
        (by
          split
          · simp
          · exact handleSearchResults_acts_no_api m p.sent results ri)
      simpa [applyActions_append, applyActions, applyAction, actsOf, eventAct?,
             filterMap_eventAct_map, apply_ite Prod.snd] using this

/-- C7: the strict-mode re-entrancy guard prevents commits during the first
development mount: the first mount enters strict mode without searching; a
search completing successfully while strict mode is on dispatches nothing to
the talk list, talk selection or chat history (those store fields are
unchanged); the second mount exits strict mode and searches; and with strict
mode off a successful search does commit its results (`setTalks` of the
fetched list is dispatched). -/
theorem strict_mode_guard_blocks_commit :
    mountEffect true { mountCounter := 0, isStrictMode := false }
      = ({ mountCounter := 1, isStrictMode := true }, false)
    ∧ (∀ (m : String → Option String) (p : PanelState) (q : String) (ri : Nat)
         (results : List Talk) (s : StoreState),
        p.isStrictMode = true → p.isSearchInProgress = false →
        ((applyActions s (actsOf (performSearch m p q ri (Outcome.success results)).2)).talks
            = s.talks
         ∧ (applyActions s (actsOf (performSearch m p q ri (Outcome.success results)).2)).selectedTalk
            = s.selectedTalk
         ∧ (applyActions s (actsOf (performSearch m p q ri (Outcome.success results)).2)).messages
            = s.messages))
    ∧ mountEffect true { mountCounter := 1, isStrictMode := true }
      = ({ mountCounter := 2, isStrictMode := false }, true)
    ∧ (∀ (m : String → Option String) (p : PanelState) (q : String) (ri : Nat)
         (results : List Talk),
        p.isStrictMode = false → p.isSearchInProgress = false →
        Action.setTalks results ∈ actsOf (performSearch m p q ri (Outcome.success results)).2) := by
  refine ⟨by simp [mountEffect], ?_, by simp [mountEffect], ?_⟩
  · intro m p q ri results s hsm hprog
    unfold performSearch
    cases hc : p.controller <;>
      simp [hprog, hsm, actsOf, eventAct?, applyActions, applyAction]
  · intro m p q ri results hsm hprog
    unfold performSearch
    unfold handleSearchResults
    cases hc : p.controller <;> cases hd : results[ri]? <;>
      simp [hprog, hsm, hd, actsOf, eventAct?, filterMap_eventAct_map]

/-- Invariant of the interleaving model: issued and aborted ids and the
current controller are below the fresh-id counter, issued ids are distinct,
and any issued request that is neither aborted nor finished is the one held
by the current controller ref. -/
structure FlightInv (s : FlightState) : Prop where
  issued_lt : ∀ r ∈ s.issued, r < s.nextId
  aborted_lt : ∀ r ∈ s.aborted, r < s.nextId
  ctrl_lt : ∀ c, s.controller = some c → c < s.nextId
  issued_nodup : s.issued.Nodup
  live_ctrl : ∀ r ∈ s.issued, r ∉ s.aborted → r ∉ s.finished → s.controller = some r

theorem flightInv_init : FlightInv initFlight := by
  refine ⟨?_, ?_, ?_, ?_, ?_⟩ <;> simp [initFlight]

theorem flightInv_invoke {s : FlightState} (h : FlightInv s) :
    FlightInv (stepInvoke s) := by
  obtain ⟨h1, h2, h3, h4, h5⟩ := h
  unfold stepInvoke
  cases hp : s.inProgress with
  | true => exact (by simp [hp]; exact ⟨h1, h2, h3, h4, h5⟩)
  | false =>
      simp only [Bool.false_eq_true, if_false]
      cases hc : s.controller with
      | none =>
          refine ⟨?_, ?_, ?_, ?_, ?_⟩
          · intro r hr
            rcases List.mem_cons.mp hr with rfl | hr
            · exact Nat.lt_succ_self _
            · exact Nat.lt_succ_of_lt (h1 r hr)
          · intro r hr
            exact Nat.lt_succ_of_lt (h2 r hr)
          · intro c hcc
            cases Option.some.inj hcc
            exact Nat.lt_succ_self _
          · exact List.nodup_cons.mpr
              ⟨fun hmem => absurd (h1 _ hmem) (Nat.lt_irrefl _), h4⟩
          · intro r hr hna hnf
            rcases List.mem_cons.mp hr with rfl | hr
            · rfl
            · exact absurd (hc ▸ h5 r hr hna hnf) (by simp)
      | some c0 =>
          refine ⟨?_, ?_, ?_, ?_, ?_⟩
          · intro r hr
            rcases List.mem_cons.mp hr with rfl | hr
            · exact Nat.lt_succ_self _
            · exact Nat.lt_succ_of_lt (h1 r hr)
          · intro r hr
            rcases List.mem_cons.mp hr with rfl | hr
            · exact Nat.lt_succ_of_lt (h3 r hc)
            · exact Nat.lt_succ_of_lt (h2 r hr)
          · intro c hcc
            cases Option.some.inj hcc
            exact Nat.lt_succ_self _
          · exact List.nodup_cons.mpr
              ⟨fun hmem => absurd (h1 _ hmem) (Nat.lt_irrefl _), h4⟩
          · intro r hr hna hnf
            rcases List.mem_cons.mp hr with rfl | hr
            · rfl
            · exfalso
              have hna2 : r ≠ c0 ∧ r ∉ s.aborted := by
                constructor
                · intro hrc; exact hna (hrc ▸ List.mem_cons_self c0 s.aborted)
                · intro hm; exact hna (List.mem_cons_of_mem _ hm)
              have := h5 r hr hna2.2 hnf
              rw [hc] at this
              exact hna2.1 (Option.some.inj this).symm

theorem flightInv_complete {s : FlightState} (h : FlightInv s) (r : Nat) :
    FlightInv (stepComplete s r) := by
  obtain ⟨h1, h2, h3, h4, h5⟩ := h
  unfold stepComplete
  split
  · refine ⟨h1, h2, h3, h4, ?_⟩
    intro x hx hna hnf
    exact h5 x hx hna (fun hm => hnf (List.mem_cons_of_mem _ hm))
  · exact ⟨h1, h2, h3, h4, h5⟩

theorem flightInv_run (cs : List FlightCmd) (s : FlightState) (h : FlightInv s) :
    FlightInv (runFlight s cs) := by
  induction cs generalizing s with
  | nil => exact h
  | cons c cs ih =>
      cases c with
      | invoke => exact ih _ (flightInv_invoke h)
      | complete r => exact ih _ (flightInv_complete h r)

theorem length_le_one_of_nodup_const {l : List Nat} {c : Nat}
    (hnd : l.Nodup) (hall : ∀ x ∈ l, x = c) : l.length ≤ 1 := by
  cases l with
  | nil => simp
  | cons a l2 =>
      cases l2 with
      | nil => simp
      | cons b l3 =>
          have ha := hall a (by simp)
          have hb := hall b (by simp)
          subst ha
          rw [hb] at hnd
          simp at hnd

theorem inFlight_le_one {s : FlightState} (h : FlightInv s) :
    (inFlightNonAborted s).length ≤ 1 := by
  have hall : ∀ x ∈ inFlightNonAborted s, s.controller = some x := by
    intro x hx
    unfold inFlightNonAborted at hx
    have hmem := List.mem_filter.mp hx
    have hcond := hmem.2
    simp only [Bool.and_eq_true, decide_eq_true_eq] at hcond
    exact h.live_ctrl x hmem.1 hcond.1 hcond.2
  cases hc : s.controller with
  | none =>
      have hnil : inFlightNonAborted s = [] := by
        refine List.eq_nil_iff_forall_not_mem.mpr fun x hx => ?_
        have := hall x hx
        rw [hc] at this
        exact Option.noConfusion this
      simp [hnil]
  | some c =>
      have hnd : (inFlightNonAborted s).Nodup := by
        unfold inFlightNonAborted
        exact h.issued_nodup.filter _
      refine @length_le_one_of_nodup_const (inFlightNonAborted s) c hnd fun x hx => ?_
      have := hall x hx
      rw [hc] at this
      exact (Option.some.inj this).symm

/-- C1: the panel manages one in-flight search at a time.  A call entered
while a search is in progress issues no request; a call that does perform a
search aborts the previously created controller (when one exists) before the
request is issued, and issues its request with the fresh controller; and over
every interleaving of call prologues and request completions, at most one
issued request is simultaneously unfinished and non-aborted. -/
theorem performSearch_single_inflight :
    (∀ (m : String → Option String) (p : PanelState) (q : String) (ri : Nat)
       (o : Outcome), p.isSearchInProgress = true →
        ∀ id : Nat, Event.issueReq id ∉ (performSearch m p q ri o).2)
    ∧ (∀ (m : String → Option String) (p : PanelState) (q : String) (ri : Nat)
         (o : Outcome) (c : Nat),
        p.isSearchInProgress = false → p.controller = some c →
        Event.abortReq c ∈ ((performSearch m p q ri o).2.takeWhile fun e => !e.isIssue)
        ∧ Event.issueReq p.nextId ∈ (performSearch m p q ri o).2)
    ∧ (∀ cmds : List FlightCmd,
        (inFlightNonAborted (runFlight initFlight cmds)).length ≤ 1) := by
  refine ⟨?_, ?_, ?_⟩
  · intro m p q ri o h id
    unfold performSearch
    simp [h]
  · intro m p q ri o c h hc
    unfold performSearch
    cases o <;>
      simp [h, hc, Event.isIssue, List.takeWhile_cons]
  · intro cmds
    exact inFlight_le_one (flightInv_run cmds initFlight flightInv_init)

theorem filter_title_eq_singleton {data : List Talk} {t : Talk}
    (hnd : (data.map Talk.title).Nodup) (ht : t ∈ data) :
    data.filter (fun x => x.title == t.title) = [t] := by
  induction data with
  | nil => cases ht
  | cons a l ih =>
      simp only [List.map_cons, List.nodup_cons] at hnd
      rcases List.mem_cons.mp ht with rfl | htl
      · rw [List.filter_cons_of_pos (by simp)]
        have hrest : l.filter (fun x => x.title == t.title) = [] := by
          refine List.filter_eq_nil_iff.mpr fun x hx hbeq => ?_
          have hxa : x.title = t.title := by simpa using hbeq
          exact hnd.1 (hxa ▸ List.mem_map_of_mem Talk.title hx)
        rw [hrest]
      · have hne : a.title ≠ t.title := by
          intro he
          exact hnd.1 (he ▸ List.mem_map_of_mem Talk.title htl)
        rw [List.filter_cons_of_neg (by simpa using hne)]
        exact ih hnd.2 htl

theorem reordered_perm {data : List Talk} {t : Talk}
    (hnd : (data.map Talk.title).Nodup) (ht : t ∈ data) :
    (t :: data.filter fun x => x.title != t.title).Perm data := by
  have hfp := List.filter_append_perm (fun x => x.title == t.title) data
  rw [filter_title_eq_singleton hnd ht] at hfp
  have hfun : (fun x : Talk => x.title != t.title)
      = fun x : Talk => !(x.title == t.title) := by
    funext x; simp [bne]
  rw [hfun]
  simpa using hfp

theorem handleSearchResults_acts_some (m : String → Option String)
    (sent : List String) (data : List Talk) (ri : Nat) (t : Talk)
    (ht : data[ri]? = some t) :
    (handleSearchResults m sent data ri).2
      = [Action.setTalks data,
         Action.setTalks (t :: data.filter fun x => x.title != t.title),
         Action.setSelectedTalk t] ++ (sendTranscriptAsMessage m sent t).2 := by
  unfold handleSearchResults
  rw [ht]

/-- Concrete talks and store used in the counterexamples: two distinct talks
sharing one title, the empty store, and an empty SDG title map. -/
def talkA : Talk :=
  { presenterDisplayName := "P1", title := "same title", url := "u1",
    sdg_tags := [], transcript := "t1" }

def talkB : Talk :=
  { presenterDisplayName := "P2", title := "same title", url := "u2",
    sdg_tags := [], transcript := "t2" }

def store0 : StoreState :=
  { talks := [], selectedTalk := none, isLoading := false, error := none,
    messages := [] }

def mEmpty : String → Option String := fun _ => none

/-- C2 counterexample: on the two-element result list `[talkA, talkB]`, two
distinct talks sharing one title, `handleSearchResults` with random index 0
stores the single-element talk list `[talkA]`: the stored list is not a
permutation of the input, the non-selected talk is dropped. -/
theorem handleSearchResults_drops_duplicate_title :
    (applyActions store0 (handleSearchResults mEmpty [] [talkA, talkB] 0).2).talks = [talkA]
    ∧ ¬ ((applyActions store0 (handleSearchResults mEmpty [] [talkA, talkB] 0).2).talks.Perm
          [talkA, talkB]) := by
  constructor
  · rfl
  · intro hperm
    have hlen := hperm.length_eq
    have hcomp :
        (applyActions store0 (handleSearchResults mEmpty [] [talkA, talkB] 0).2).talks
          = [talkA] := rfl
    rw [hcomp] at hlen
    simp at hlen

/-- C2 (amended): for a non-empty result list whose talks have pairwise
distinct titles, `handleSearchResults` selects the element at the random
index, stores the list reordered with the selected talk first followed by
every other input element (a permutation of the input), and stores the
selected talk as the selected-talk state.  Without the distinct-title
assumption the stored list need not be a permutation (see the
counterexample). -/
theorem handleSearchResults_selects_and_reorders (m : String → Option String)
    (sent : List String) (data : List Talk) (ri : Nat) (t : Talk)
    (hnd : (data.map Talk.title).Nodup) (ht : data[ri]? = some t) :
    t ∈ data
    ∧ (∀ s : StoreState,
        (applyActions s (handleSearchResults m sent data ri).2).talks
          = t :: data.filter (fun x => x.title != t.title)
        ∧ (applyActions s (handleSearchResults m sent data ri).2).talks.Perm data
        ∧ (applyActions s (handleSearchResults m sent data ri).2).talks.head? = some t
        ∧ (applyActions s (handleSearchResults m sent data ri).2).selectedTalk = some t) := by
  have htm : t ∈ data := List.getElem?_mem ht
  refine ⟨htm, fun s => ?_⟩
  obtain ⟨hT, hS, hL, hE⟩ := applyActions_sendOnly_talks
      (applyActions s [Action.setTalks data,
         Action.setTalks (t :: data.filter fun x => x.title != t.title),
         Action.setSelectedTalk t])
      (sendTranscriptAsMessage m sent t).2
      (sendTranscript_acts_sendOnly m sent t)
  refine ⟨?_, ?_, ?_, ?_⟩
  · rw [handleSearchResults_acts_some m sent data ri t ht, applyActions_append]
    exact hT
  · rw [handleSearchResults_acts_some m sent data ri t ht, applyActions_append, hT]
    exact reordered_perm hnd htm
  · rw [handleSearchResults_acts_some m sent data ri t ht, applyActions_append, hT]
    rfl
  · rw [handleSearchResults_acts_some m sent data ri t ht, applyActions_append]
    exact hS

/-- A string contains `sub` as a contiguous substring. -/
def ContainsStr (s sub : String) : Prop := ∃ a b, s = a ++ sub ++ b

theorem intercalate_go_extends (sep : String) (l : List String) :
    ∀ acc, ∃ b, String.intercalate.go acc sep l = acc ++ b := by
  induction l with
  | nil => exact fun acc => ⟨"", (String.append_empty acc).symm⟩
  | cons x xs ih =>
      intro acc
      obtain ⟨b, hb⟩ := ih (acc ++ sep ++ x)
      refine ⟨sep ++ x ++ b, ?_⟩
      rw [show String.intercalate.go acc sep (x :: xs)
            = String.intercalate.go (acc ++ sep ++ x) sep xs from rfl, hb]
      simp [String.append_assoc]

theorem intercalate_go_contains (sep : String) (l : List String) (x : String) :
    ∀ acc, x ∈ l → ContainsStr (String.intercalate.go acc sep l) x := by
  induction l with
  | nil => intro acc hx; cases hx
  | cons y ys ih =>
      intro acc hx
      rcases List.mem_cons.mp hx with rfl | hmem
      · obtain ⟨b, hb⟩ := intercalate_go_extends sep ys (acc ++ sep ++ x)
        refine ⟨acc ++ sep, b, ?_⟩
        rw [show String.intercalate.go acc sep (x :: ys)
              = String.intercalate.go (acc ++ sep ++ x) sep ys from rfl, hb]
      · exact (show String.intercalate.go acc sep (y :: ys)
              = String.intercalate.go (acc ++ sep ++ y) sep ys from rfl) ▸ ih _ hmem

theorem intercalate_contains {l : List String} {x : String} (hx : x ∈ l)
    (sep : String) : ContainsStr (String.intercalate sep l) x := by
  cases l with
  | nil => cases hx
  | cons y ys =>
      rcases List.mem_cons.mp hx with rfl | hmem
      · obtain ⟨b, hb⟩ := intercalate_go_extends sep ys x
        refine ⟨"", b, ?_⟩
        rw [show String.intercalate sep (x :: ys)
              = String.intercalate.go x sep ys from rfl, hb]
        simp
      · exact (show String.intercalate sep (y :: ys)
              = String.intercalate.go y sep ys from rfl) ▸
            intercalate_go_contains sep ys x y hmem

theorem sendTranscript_acts_new (m : String → Option String) (sent : List String)
    (t : Talk) (hnew : t.title ∉ sent) :
    sendTranscriptAsMessage m sent t
      = (t.title :: sent, [Action.sendMessage (transcriptMessage m t)]) := by
  simp [sendTranscriptAsMessage, hnew]

/-- C4 counterexample: when the selected talk's title was already sent
(`sentMessagesRef` contains it), `handleSearchResults` on a non-empty result
list dispatches no chat message at all, so no bot message with the talk's
content reaches the chat log. -/
theorem handleSearchResults_no_message_when_already_sent :
    (handleSearchResults mEmpty ["same title"] [talkA] 0).2.filter Action.isSendMessage = []
    ∧ (applyActions store0
        (handleSearchResults mEmpty ["same title"] [talkA] 0).2).messages = [] := by
  constructor <;> rfl

/-- C4 (amended): for every non-empty result list handled by
`handleSearchResults` whose selected talk's title has not been sent before, a
bot message is dispatched into the chat log whose text contains the selected
talk's transcript, its title, and each of its SDG tag titles, and whose
persona is the talk's presenter display name; the chat history is extended by
exactly this message. -/
theorem handleSearchResults_forwards_content (m : String → Option String)
    (sent : List String) (data : List Talk) (ri : Nat) (t : Talk)
    (ht : data[ri]? = some t) (hnew : t.title ∉ sent) :
    ∃ msg : ChatMessage,
      Action.sendMessage msg ∈ (handleSearchResults m sent data ri).2
      ∧ msg.persona = some t.presenterDisplayName
      ∧ msg.role = some "bot"
      ∧ ContainsStr msg.text t.transcript
      ∧ ContainsStr msg.text t.title
      ∧ (∀ x ∈ getSdgTitles m t.sdg_tags, ContainsStr msg.text x)
      ∧ (∀ s : StoreState,
          (applyActions s (handleSearchResults m sent data ri).2).messages
            = s.messages ++ [msg]) := by
  refine ⟨transcriptMessage m t, ?_, rfl, rfl, ?_, ?_, ?_, ?_⟩
  · rw [handleSearchResults_acts_some m sent data ri t ht,
        sendTranscript_acts_new m sent t hnew]
    simp
  · refine ⟨"", " —— " ++ (t.title ++ ("\n\n"
        ++ String.intercalate ", " (getSdgTitles m t.sdg_tags))), ?_⟩
    simp [transcriptMessage, String.append_assoc]
  · refine ⟨t.transcript ++ " —— ", "\n\n"
        ++ String.intercalate ", " (getSdgTitles m t.sdg_tags), ?_⟩
    simp [transcriptMessage, String.append_assoc]
  · intro x hx
    obtain ⟨a, b, hab⟩ := intercalate_contains hx ", "
    refine ⟨t.transcript ++ " —— " ++ t.title ++ "\n\n" ++ a, b, ?_⟩
    simp [transcriptMessage, hab, String.append_assoc]
  · intro s
    rw [handleSearchResults_acts_some m sent data ri t ht,
        sendTranscript_acts_new m sent t hnew]
    rfl

/-- C3 counterexample: the asserted debounce property fails on the panel's
handlers: two Enter keydowns in the query input 100 ms apart (well within one
500 ms quiet period) each invoke `performSearch` directly, producing two
invocations instead of at most one. -/
theorem debounce_property_fails : ¬ specDebounceProperty := by
  intro h
  have h2 := h "x" [(0, UiEvent.keyDown "Enter"), (100, UiEvent.keyDown "Enter")]
      (by decide)
  have h3 : ¬ ((performSearchInvocations "x"
      [(0, UiEvent.keyDown "Enter"), (100, UiEvent.keyDown "Enter")]).length ≤ 1) := by
    decide
  exact h3 h2

/-- C3 (amended): the panel defines a 500 ms debounced `performSearch`
wrapper but no user-input path invokes it: editing the query input only
updates the query state and triggers no search, while an Enter keydown in the
input and the Search button call `performSearch` directly, with no quiet
period; the debounced wrapper is never called by any handler. -/
theorem search_triggers_bypass_debounce :
    debounceWaitMs = 500
    ∧ (∀ q v, handlerCallsFor q (UiEvent.queryChange v)
        = [HandlerCall.setSearchQueryCall v])
    ∧ (∀ q, handlerCallsFor q (UiEvent.keyDown "Enter")
        = [HandlerCall.performSearchNow q])
    ∧ (∀ q k, k ≠ "Enter" → handlerCallsFor q (UiEvent.keyDown k) = [])
    ∧ (∀ q, handlerCallsFor q UiEvent.searchClick = [HandlerCall.performSearchNow q])
    ∧ (∀ q c e, HandlerCall.debouncedSearchCall c ∉ handlerCallsFor q e) := by
  refine ⟨rfl, fun q v => rfl, fun q => by simp [handlerCallsFor],
    fun q k hk => by simp [handlerCallsFor, hk], fun q => rfl, ?_⟩
  intro q c e
  cases e with
  | queryChange v => simp [handlerCallsFor]
  | keyDown k => by_cases hk : k = "Enter" <;> simp [handlerCallsFor, hk]
  | searchClick => simp [handlerCallsFor]

/-- C10: `sendTranscriptAsMessage` is idempotent per talk title: a call whose
talk title is already in the sent set dispatches nothing and leaves the store
unchanged, and across any sequence of calls over the panel's lifetime the
dispatched messages are those of a subsequence of the talks whose titles are
pairwise distinct and not previously sent, so at most one chat message is
ever dispatched per title. -/
theorem sendTranscript_idempotent_per_title :
    (∀ (m : String → Option String) (sent : List String) (t : Talk),
        t.title ∈ sent →
        sendTranscriptAsMessage m sent t = (sent, [])
        ∧ ∀ s : StoreState, applyActions s (sendTranscriptAsMessage m sent t).2 = s)
    ∧ (∀ (m : String → Option String) (sent : List String) (ts : List Talk),
        ∃ ds : List Talk,
          ds.Sublist ts
          ∧ (ds.map Talk.title).Nodup
          ∧ (∀ d ∈ ds, d.title ∉ sent)
          ∧ (runSendAll m sent ts).2
              = ds.map fun d => Action.sendMessage (transcriptMessage m d)) := by
  constructor
  · intro m sent t htin
    have he : sendTranscriptAsMessage m sent t = (sent, []) := by
      simp [sendTranscriptAsMessage, htin]
    exact ⟨he, fun s => by rw [he]; rfl⟩
  · intro m sent ts
    induction ts generalizing sent with
    | nil => exact ⟨[], List.Sublist.refl _, by simp, by simp, rfl⟩
    | cons t ts ih =>
        by_cases htin : t.title ∈ sent
        · obtain ⟨ds, hsub, hnd, hdisj, hacts⟩ := ih sent
          refine ⟨ds, hsub.cons t, hnd, hdisj, ?_⟩
          simp [runSendAll, sendTranscriptAsMessage, htin, hacts]
        · obtain ⟨ds, hsub, hnd, hdisj, hacts⟩ := ih (t.title :: sent)
          refine ⟨t :: ds, hsub.cons₂ t, ?_, ?_, ?_⟩
          · refine List.nodup_cons.mpr ⟨?_, hnd⟩
            intro hmem
            obtain ⟨d, hd, hde⟩ := List.mem_map.mp hmem
            refine hdisj d hd ?_
            rw [hde]
            exact List.mem_cons_self _ _
          · intro d hd
            rcases List.mem_cons.mp hd with rfl | hd2
            · exact htin
            · exact fun hmem => hdisj d hd2 (List.mem_cons_of_mem _ hmem)
          · simp [runSendAll, sendTranscriptAsMessage, htin, hacts]

/-- Concrete panel states and a talk with distinct title, used by the
witnesses. -/
def busyPanel : PanelState :=
  { isStrictMode := false, isSearchInProgress := true, controller := none,
    nextId := 0, sent := [] }

def idlePanel : PanelState :=
  { isStrictMode := false, isSearchInProgress := false, controller := some 5,
    nextId := 6, sent := [] }

def strictPanel : PanelState :=
  { isStrictMode := true, isSearchInProgress := false, controller := none,
    nextId := 0, sent := [] }

def talkC : Talk :=
  { presenterDisplayName := "P3", title := "title c", url := "u3",
    sdg_tags := ["sdg1"], transcript := "t3" }

/-- Witness for C1 at concrete inputs. -/
theorem performSearch_single_inflight_witness :
    Event.issueReq 0 ∉ (performSearch mEmpty busyPanel "x" 0 Outcome.cancelled).2
    ∧ (Event.abortReq 5 ∈ ((performSearch mEmpty idlePanel "x" 0 Outcome.cancelled).2.takeWhile
          fun e => !e.isIssue)
       ∧ Event.issueReq 6 ∈ (performSearch mEmpty idlePanel "x" 0 Outcome.cancelled).2)
    ∧ (inFlightNonAborted (runFlight initFlight
          [FlightCmd.invoke, FlightCmd.invoke, FlightCmd.complete 0])).length ≤ 1 :=
  ⟨performSearch_single_inflight.1 mEmpty busyPanel "x" 0 Outcome.cancelled rfl 0,
   performSearch_single_inflight.2.1 mEmpty idlePanel "x" 0 Outcome.cancelled 5 rfl rfl,
   performSearch_single_inflight.2.2 [FlightCmd.invoke, FlightCmd.invoke, FlightCmd.complete 0]⟩

/-- Witness for the amended C2 at concrete inputs. -/
theorem handleSearchResults_reorders_witness :
    talkA ∈ [talkC, talkA]
    ∧ ((applyActions store0 (handleSearchResults mEmpty [] [talkC, talkA] 1).2).talks
        = talkA :: [talkC, talkA].filter (fun x => x.title != talkA.title)
       ∧ (applyActions store0 (handleSearchResults mEmpty [] [talkC, talkA] 1).2).talks.Perm
          [talkC, talkA]
       ∧ (applyActions store0 (handleSearchResults mEmpty [] [talkC, talkA] 1).2).talks.head?
          = some talkA
       ∧ (applyActions store0 (handleSearchResults mEmpty [] [talkC, talkA] 1).2).selectedTalk
          = some talkA) :=
  ⟨(handleSearchResults_selects_and_reorders mEmpty [] [talkC, talkA] 1 talkA
      (by decide) (by decide)).1,
   (handleSearchResults_selects_and_reorders mEmpty [] [talkC, talkA] 1 talkA
      (by decide) (by decide)).2 store0⟩

/-- Witness for the amended C3 at concrete inputs. -/
theorem search_triggers_bypass_debounce_witness :
    handlerCallsFor "x" (UiEvent.keyDown "a") = [] :=
  search_triggers_bypass_debounce.2.2.2.1 "x" "a" (by decide)

/-- Witness for the amended C4 at concrete inputs. -/
theorem handleSearchResults_forwards_content_witness :
    ∃ msg : ChatMessage,
      Action.sendMessage msg ∈ (handleSearchResults mEmpty [] [talkC] 0).2
      ∧ msg.persona = some talkC.presenterDisplayName
      ∧ ContainsStr msg.text talkC.transcript := by
  obtain ⟨msg, h1, h2, h3, h4, h5⟩ :=
    handleSearchResults_forwards_content mEmpty [] [talkC] 0 talkC rfl (by decide)
  exact ⟨msg, h1, h2, h4⟩

/-- Witness for C5 at concrete inputs. -/
theorem performSearch_cancelled_ignored_witness :
    Event.attrCancelled ∈ (performSearch mEmpty idlePanel "x" 0 Outcome.cancelled).2
    ∧ (applyActions store0
        (actsOf (performSearch mEmpty idlePanel "x" 0 Outcome.cancelled).2)).error = none := by
  have h := performSearch_cancelled_ignored mEmpty idlePanel "x" 0 rfl
  exact ⟨h.1, h.2.2.2.2.2 store0⟩

/-- Witness for C6 at concrete inputs. -/
theorem performSearch_loading_error_flags_witness :
    actsOf ((performSearch mEmpty idlePanel "x" 0 Outcome.failure).2.takeWhile
        fun e => !e.isIssue)
      = [Action.setLoading true, Action.setApiError none]
    ∧ (applyActions store0
        (actsOf (performSearch mEmpty idlePanel "x" 0 Outcome.failure).2)).isLoading = false
    ∧ (applyActions store0
        (actsOf (performSearch mEmpty idlePanel "x" 0 Outcome.failure).2)).error
      = if Outcome.failure = Outcome.failure then some "Error fetching talks." else none := by
  have h := performSearch_loading_error_flags mEmpty idlePanel "x" 0 Outcome.failure rfl
  exact ⟨h.1, h.2.1 store0, h.2.2 store0⟩

/-- Witness for C7 at concrete inputs. -/
theorem strict_mode_guard_witness :
    (applyActions store0
        (actsOf (performSearch mEmpty strictPanel "x" 0 (Outcome.success [talkC])).2)).talks
      = store0.talks
    ∧ (applyActions store0
        (actsOf (performSearch mEmpty strictPanel "x" 0 (Outcome.success [talkC])).2)).messages
      = store0.messages
    ∧ Action.setTalks [talkC]
        ∈ actsOf (performSearch mEmpty idlePanel "x" 0 (Outcome.success [talkC])).2 := by
  obtain ⟨h2a, h2b, h2c⟩ := strict_mode_guard_blocks_commit.2.1 mEmpty strictPanel "x" 0
      [talkC] store0 rfl rfl
  exact ⟨h2a, h2c,
    strict_mode_guard_blocks_commit.2.2.2 mEmpty idlePanel "x" 0 [talkC] rfl rfl⟩

/-- Witness for C10 at concrete inputs. -/
theorem sendTranscript_idempotent_witness :
    sendTranscriptAsMessage mEmpty ["same title"] talkA = (["same title"], [])
    ∧ applyActions store0 (sendTranscriptAsMessage mEmpty ["same title"] talkA).2 = store0 := by
  have h := sendTranscript_idempotent_per_title.1 mEmpty ["same title"] talkA (by decide)
  exact ⟨h.1, h.2 store0⟩

end TedxSearch
